import Mathlib

/-!
Shallow embedding of the geometric intersection kernel of the `pbr`
renderer: axis-aligned bounding boxes (`bounding_box.rs`), rays (`ray.rs`),
the sphere shape constructor (`shape/sphere.rs`), and the surface
interaction record (`interaction.rs`, `vector.rs`).

Modelling conventions:
* `f32` scalars are modelled as exact rationals (`ℚ`) in the bounding-box,
  ray and sphere code, where no square roots occur; `1.0 / d` is treated as
  infinite exactly when `d = 0`.
* the surface-interaction code calls `normalize` (a square root), so its
  vectors are modelled over `ℝ`.
* `f32` values *including NaN* are modelled by the type `FP` (a rational or
  `nan`), used to model the partial-order min/max helpers whose unorderable
  branch panics; the panic is modelled by `PanicOr.panicked` carrying the
  source's panic message.
* Rust's in-place mutations (`expand`, `set_shading_geometry`) are modelled
  as functions returning the updated value.
-/

namespace PBR

/-- The three coordinate axes (`axis::Axis3`). -/
inductive Axis3 where
  | X
  | Y
  | Z
  deriving DecidableEq, Repr

/-- Position of an axis in the source's evaluation order `x, y, z`. -/
def Axis3.idx : Axis3 → Nat
  | Axis3.X => 0
  | Axis3.Y => 1
  | Axis3.Z => 2

/-- `cgmath::Point3<f32>` in exact-rational model. -/
structure Point3 where
  x : ℚ
  y : ℚ
  z : ℚ
  deriving DecidableEq, Repr

/-- `cgmath::Vector3<f32>` in exact-rational model. -/
structure Vector3 where
  x : ℚ
  y : ℚ
  z : ℚ
  deriving DecidableEq, Repr

/-- Component of a point on a given axis (`point[dim]`). -/
def Point3.get : Point3 → Axis3 → ℚ
  | p, Axis3.X => p.x
  | p, Axis3.Y => p.y
  | p, Axis3.Z => p.z

/-- Component of a vector on a given axis (`vector[dim]`). -/
def Vector3.get : Vector3 → Axis3 → ℚ
  | v, Axis3.X => v.x
  | v, Axis3.Y => v.y
  | v, Axis3.Z => v.z

/-- `min_partial_ord` from `bounding_box.rs`, instantiated at a total order
(`ℚ` models `f32` without NaN).  The source's third branch panics on an
unorderable pair; over a total order that branch is unreachable
(`¬ x ≤ y → y < x`), so it is modelled faithfully (reachably) only in
`min_partial_ord_fp` below. -/
def min_partial_ord (x y : ℚ) : ℚ :=
  if x ≤ y then x else if y < x then y else x

/-- `max_partial_ord` from `bounding_box.rs` at a total order; see
`min_partial_ord`. -/
def max_partial_ord (x y : ℚ) : ℚ :=
  if x ≥ y then x else if y > x then y else x

/-- `Bounds3<f32>` from `bounding_box.rs` (exact-rational model). -/
structure Bounds3 where
  min : Point3
  max : Point3
  deriving DecidableEq, Repr

/-- The bounding-box invariant of the spec: `min[i] ≤ max[i]` on every
axis. -/
def Bounds3.wf (b : Bounds3) : Prop :=
  b.min.x ≤ b.max.x ∧ b.min.y ≤ b.max.y ∧ b.min.z ≤ b.max.z

instance (b : Bounds3) : Decidable b.wf := by
  unfold Bounds3.wf
  infer_instance

/-- `Bounds3::from_point`. -/
def Bounds3.from_point (p : Point3) : Bounds3 :=
  { min := p, max := p }

/-- `Bounds3::from_corners`. -/
def Bounds3.from_corners (p1 p2 : Point3) : Bounds3 :=
  { min := ⟨min_partial_ord p1.x p2.x, min_partial_ord p1.y p2.y,
            min_partial_ord p1.z p2.z⟩,
    max := ⟨max_partial_ord p1.x p2.x, max_partial_ord p1.y p2.y,
            max_partial_ord p1.z p2.z⟩ }

/-- `Bounds3::union`. -/
def Bounds3.union (a other : Bounds3) : Bounds3 :=
  { min := ⟨min_partial_ord a.min.x other.min.x, min_partial_ord a.min.y other.min.y,
            min_partial_ord a.min.z other.min.z⟩,
    max := ⟨max_partial_ord a.max.x other.max.x, max_partial_ord a.max.y other.max.y,
            max_partial_ord a.max.z other.max.z⟩ }

/-- `Bounds3::union_with_point`. -/
def Bounds3.union_with_point (a : Bounds3) (p : Point3) : Bounds3 :=
  a.union (Bounds3.from_point p)

/-- `leq_3d` from `bounding_box.rs`. -/
def leq_3d (p1 p2 : Point3) : Bool :=
  decide (p1.x ≤ p2.x) && decide (p1.y ≤ p2.y) && decide (p1.z ≤ p2.z)

/-- `Bounds3::intersection`.  The candidate `min` is the per-axis max of
mins and the candidate `max` the per-axis min of maxes, wrapped in `some`
exactly when `leq_3d` accepts the pair. -/
def Bounds3.intersection (a other : Bounds3) : Option Bounds3 :=
  let mn : Point3 :=
    ⟨max_partial_ord a.min.x other.min.x, max_partial_ord a.min.y other.min.y,
      max_partial_ord a.min.z other.min.z⟩
  let mx : Point3 :=
    ⟨min_partial_ord a.max.x other.max.x, min_partial_ord a.max.y other.max.y,
      min_partial_ord a.max.z other.max.z⟩
  if leq_3d mn mx then some { min := mn, max := mx } else none

/-- `Bounds3::overlaps`. -/
def Bounds3.overlaps (a other : Bounds3) : Bool :=
  let x_overlaps := decide (a.min.x ≤ other.max.x) && decide (a.max.x ≥ other.min.x)
  let y_overlaps := decide (a.min.y ≤ other.max.y) && decide (a.max.y ≥ other.min.y)
  let z_overlaps := decide (a.min.z ≤ other.max.z) && decide (a.max.z ≥ other.min.z)
  x_overlaps && y_overlaps && z_overlaps

/-- `Bounds3::inside`. -/
def Bounds3.inside (b : Bounds3) (p : Point3) : Bool :=
  decide (p.x ≥ b.min.x) && decide (p.x ≤ b.max.x) &&
  decide (p.y ≥ b.min.y) && decide (p.y ≤ b.max.y) &&
  decide (p.z ≥ b.min.z) && decide (p.z ≤ b.max.z)

/-- `Bounds3::inside_exclusive`, comparison by comparison as in the source
(note the `>=` on the x lower bound, against `>` on y and z). -/
def Bounds3.inside_exclusive (b : Bounds3) (p : Point3) : Bool :=
  decide (p.x ≥ b.min.x) && decide (p.x < b.max.x) &&
  decide (p.y > b.min.y) && decide (p.y < b.max.y) &&
  decide (p.z > b.min.z) && decide (p.z < b.max.z)

/-- `Bounds3::expand` (an in-place mutation in the source, modelled as
returning the updated box). -/
def Bounds3.expand (b : Bounds3) (delta : ℚ) : Bounds3 :=
  if delta > 0 then
    { min := ⟨b.min.x - delta, b.min.y - delta, b.min.z - delta⟩,
      max := ⟨b.max.x + delta, b.max.y + delta, b.max.z + delta⟩ }
  else b

/-- `Bounds3::diagonal`. -/
def Bounds3.diagonal (b : Bounds3) : Vector3 :=
  ⟨b.max.x - b.min.x, b.max.y - b.min.y, b.max.z - b.min.z⟩

/-- `Bounds3::maximum_extend` (the source's name for the longest-axis
query). -/
def Bounds3.maximum_extend (b : Bounds3) : Axis3 :=
  let d := b.diagonal
  if d.x > d.y ∧ d.x > d.z then Axis3.X
  else if d.y > d.z then Axis3.Y
  else Axis3.Z

/-- `Ray` from `ray.rs`.  The `medium` field is an opaque reference to an
external subsystem and is not modelled. -/
structure Ray where
  origin : Point3
  direction : Vector3
  t_max : ℚ
  time : ℚ

/-- One iteration (one value of `dim`) of the loop in
`Bounds3::<f32>::ray_intersection` (`bounding_box.rs`): `acc` is the
running `result` interval and `none` models the early `return None`.
In the exact-rational model the reciprocal `1.0 / d` is infinite exactly
when `d = 0`. -/
def slab_dim (bmin bmax o d : ℚ) (acc : ℚ × ℚ) : Option (ℚ × ℚ) :=
  if d = 0 then
    if o < bmin ∨ o > bmax then none
    else some acc
  else
    let ray_direction_recip := 1 / d
    let t_at_bounds_min := (bmin - o) * ray_direction_recip
    let t_at_bounds_max := (bmax - o) * ray_direction_recip
    let t_near := if t_at_bounds_min > t_at_bounds_max then t_at_bounds_max else t_at_bounds_min
    let t_far := if t_at_bounds_min > t_at_bounds_max then t_at_bounds_min else t_at_bounds_max
    let r0 := if t_near > acc.1 then t_near else acc.1
    let r1 := if t_far < acc.2 then t_far else acc.2
    if r0 > r1 then none else some (r0, r1)

/-- `Bounds3::<f32>::ray_intersection`: the loop over `dim in 0..3`
unrolled over the axes `x, y, z`, starting from `result = (0.0, ray.t_max)`. -/
def Bounds3.ray_intersection (b : Bounds3) (r : Ray) : Option (ℚ × ℚ) :=
  (slab_dim b.min.x b.max.x r.origin.x r.direction.x (0, r.t_max)).bind fun acc1 =>
    (slab_dim b.min.y b.max.y r.origin.y r.direction.y acc1).bind fun acc2 =>
      slab_dim b.min.z b.max.z r.origin.z r.direction.z acc2

/-- An `f32` value for the NaN-aware model: a rational or `nan`. -/
inductive FP where
  | nan : FP
  | num : ℚ → FP
  deriving DecidableEq, Repr

/-- `PartialOrd::le` on `f32`: false whenever either side is NaN. -/
def FP.le : FP → FP → Bool
  | FP.num a, FP.num b => decide (a ≤ b)
  | _, _ => false

/-- `PartialOrd::lt` on `f32`: false whenever either side is NaN. -/
def FP.lt : FP → FP → Bool
  | FP.num a, FP.num b => decide (a < b)
  | _, _ => false

/-- `PartialOrd::ge` on `f32`. -/
def FP.ge (x y : FP) : Bool := FP.le y x

/-- `PartialOrd::gt` on `f32`. -/
def FP.gt (x y : FP) : Bool := FP.lt y x

/-- Outcome of a computation that may abort the process: `panicked` models
Rust's `panic` with its message. -/
inductive PanicOr (α : Type) where
  | ok : α → PanicOr α
  | panicked : String → PanicOr α
  deriving DecidableEq, Repr

/-- Sequencing that propagates a panic (the process aborts at the first
panicking call). -/
def PanicOr.bind {α β : Type} : PanicOr α → (α → PanicOr β) → PanicOr β
  | PanicOr.ok a, f => f a
  | PanicOr.panicked m, _ => PanicOr.panicked m

/-- `min_partial_ord` from `bounding_box.rs` at `f32` with NaN: the
unorderable branch panics with the source's message. -/
def min_partial_ord_fp (x y : FP) : PanicOr FP :=
  if x.le y then PanicOr.ok x
  else if y.lt x then PanicOr.ok y
  else PanicOr.panicked "Could not find a minimumn between the given values."

/-- `max_partial_ord` from `bounding_box.rs` at `f32` with NaN. -/
def max_partial_ord_fp (x y : FP) : PanicOr FP :=
  if x.ge y then PanicOr.ok x
  else if y.gt x then PanicOr.ok y
  else PanicOr.panicked "Could not find a maximum between the given values."

/-- `cgmath::Point3<f32>` in the NaN-aware model. -/
structure Point3F where
  x : FP
  y : FP
  z : FP
  deriving DecidableEq, Repr

/-- `Bounds3<f32>` in the NaN-aware model. -/
structure Bounds3F where
  min : Point3F
  max : Point3F
  deriving DecidableEq, Repr

/-- `Bounds3::from_corners` in the NaN-aware model, with the source's
evaluation order (the three `min` components, then the three `max`
components); the first panicking comparison aborts. -/
def from_corners_fp (p1 p2 : Point3F) : PanicOr Bounds3F :=
  (min_partial_ord_fp p1.x p2.x).bind fun mnx =>
    (min_partial_ord_fp p1.y p2.y).bind fun mny =>
      (min_partial_ord_fp p1.z p2.z).bind fun mnz =>
        (max_partial_ord_fp p1.x p2.x).bind fun mxx =>
          (max_partial_ord_fp p1.y p2.y).bind fun mxy =>
            (max_partial_ord_fp p1.z p2.z).bind fun mxz =>
              PanicOr.ok ⟨⟨mnx, mny, mnz⟩, ⟨mxx, mxy, mxz⟩⟩

/-- `cgmath::Matrix4<f32>`, column-major: `entry c r` is `self[c][r]`. -/
structure Matrix4 where
  entry : Fin 4 → Fin 4 → ℚ

/-- `SwapHandedness::swaps_handedness` for `cgmath::Matrix4<f32>`
(`transform.rs`): the determinant of the upper-left 3x3 block is
negative. -/
def Matrix4.swaps_handedness (m : Matrix4) : Bool :=
  let det :=
    m.entry 0 0 * (m.entry 1 1 * m.entry 2 2 - m.entry 2 1 * m.entry 1 2)
      - m.entry 1 0 * (m.entry 0 1 * m.entry 2 2 - m.entry 2 1 * m.entry 0 2)
      + m.entry 2 0 * (m.entry 0 1 * m.entry 1 2 - m.entry 1 1 * m.entry 0 2)
  decide (det < 0)

/-- `Sphere` from `shape/sphere.rs` (matrix references modelled by
values). -/
structure Sphere where
  object_to_world : Matrix4
  world_to_object : Matrix4
  object_to_world_swaps_handedness : Bool
  reverse_orientation : Bool
  radius : ℚ
  z_min : ℚ
  z_max : ℚ
  theta_min : ℚ
  theta_max : ℚ
  phi_max : ℚ

/-- `Sphere::new`, field for field as in the source: note `theta_min`,
`theta_max` and `phi_max` are all set to `0.0`. -/
def Sphere.new (object_to_world world_to_object : Matrix4)
    (reverse_orientation : Bool) (radius z_min z_max phi_max : ℚ) : Sphere :=
  { object_to_world := object_to_world,
    world_to_object := world_to_object,
    object_to_world_swaps_handedness := object_to_world.swaps_handedness,
    reverse_orientation := reverse_orientation,
    radius := radius,
    z_min := z_min,
    z_max := z_max,
    theta_min := 0,
    theta_max := 0,
    phi_max := 0 }

/-- `cgmath::Vector3<f32>` over `ℝ`, for the interaction code whose
`normalize` takes a square root. -/
structure Vec3 where
  x : ℝ
  y : ℝ
  z : ℝ

/-- `cgmath` dot product. -/
def Vec3.dot (a b : Vec3) : ℝ :=
  a.x * b.x + a.y * b.y + a.z * b.z

/-- `cgmath` cross product. -/
def Vec3.cross (a b : Vec3) : Vec3 :=
  ⟨a.y * b.z - a.z * b.y, a.z * b.x - a.x * b.z, a.x * b.y - a.y * b.x⟩

/-- Scalar multiple of a vector. -/
def Vec3.smul (s : ℝ) (v : Vec3) : Vec3 :=
  ⟨s * v.x, s * v.y, s * v.z⟩

/-- `cgmath` `Vector3::map`. -/
def Vec3.vmap (f : ℝ → ℝ) (v : Vec3) : Vec3 :=
  ⟨f v.x, f v.y, f v.z⟩

/-- `cgmath` `magnitude`. -/
noncomputable def Vec3.magnitude (v : Vec3) : ℝ :=
  Real.sqrt (v.dot v)

/-- `cgmath` `normalize`: `self * (1 / self.magnitude())`. -/
noncomputable def Vec3.normalize (v : Vec3) : Vec3 :=
  Vec3.smul (1 / v.magnitude) v

/-- `face_forward` from `vector.rs`: flip `v1` when its angle with `v2`
exceeds 90 degrees. -/
noncomputable def face_forward (v1 v2 : Vec3) : Vec3 :=
  if v1.dot v2 < 0 then Vec3.smul (0 - 1) v1 else v1

/-- `shape::GenericShape` (`shape/mod.rs`): the two orientation flags. -/
structure GenericShape where
  reverse_orientation : Bool
  transform_swaps_handedness : Bool

/-- `ShadingGeometry` from `interaction.rs`. -/
structure ShadingGeometry where
  normal : Vec3
  dpdu : Vec3
  dpdv : Vec3
  dndu : Vec3
  dndv : Vec3

/-- `SurfaceInteraction` from `interaction.rs`.  The `time` field
(`std::time::Instant`) and the opaque `medium_interface` are not modelled;
the shape reference is modelled by its `GenericShape` flag record. -/
structure SurfaceInteraction where
  point : Vec3
  point_error_bound : Vec3
  neg_ray_direction : Option Vec3
  shape : GenericShape
  normal : Vec3
  uv : ℝ × ℝ
  dpdu : Vec3
  dpdv : Vec3
  dndu : Vec3
  dndv : Vec3
  shading_geometry : ShadingGeometry

/-- `SurfaceInteraction::new`: the stored geometric normal is the
normalized `dpdu x dpdv` when `reverse_orientation` XOR
`transform_swaps_handedness` holds, and the normalized negation of
`dpdu x dpdv` otherwise — branch for branch as in the source. -/
noncomputable def SurfaceInteraction.new (point : Vec3)
    (point_error_bound : Vec3) (neg_ray_direction : Option Vec3)
    (shape : GenericShape) (uv : ℝ × ℝ)
    (dpdu dpdv dndu dndv : Vec3) : SurfaceInteraction :=
  let normal :=
    if (shape.reverse_orientation && !shape.transform_swaps_handedness)
        || (!shape.reverse_orientation && shape.transform_swaps_handedness) then
      (dpdu.cross dpdv).normalize
    else
      ((dpdu.cross dpdv).vmap (fun f => -1 * f)).normalize
  { point := point,
    point_error_bound := point_error_bound,
    neg_ray_direction := neg_ray_direction,
    shape := shape,
    normal := normal,
    uv := uv,
    dpdu := dpdu,
    dpdv := dpdv,
    dndu := dndu,
    dndv := dndv,
    shading_geometry :=
      { normal := normal, dpdu := dpdu, dpdv := dpdv, dndu := dndu, dndv := dndv } }

/-- `SurfaceInteraction::set_shading_geometry` (an in-place mutation in the
source, modelled as returning the updated record): the shading normal is
recomputed as the normalized `dpdu x dpdv`, then one of the two normals is
reoriented by `face_forward` according to `orientation_is_authoritative`. -/
noncomputable def SurfaceInteraction.set_shading_geometry
    (si : SurfaceInteraction) (dpdu dpdv dndu dndv : Vec3)
    (orientation_is_authoritative : Bool) : SurfaceInteraction :=
  let sg_normal := (dpdu.cross dpdv).normalize
  if orientation_is_authoritative then
    { si with
      normal := face_forward si.normal sg_normal,
      shading_geometry :=
        { normal := sg_normal, dpdu := dpdu, dpdv := dpdv, dndu := dndu, dndv := dndv } }
  else
    { si with
      shading_geometry :=
        { normal := face_forward sg_normal si.normal,
          dpdu := dpdu, dpdv := dpdv, dndu := dndu, dndv := dndv } }

/-! ### Helper lemmas -/

theorem min_partial_ord_eq (x y : ℚ) : min_partial_ord x y = min x y := by
  unfold min_partial_ord
  rcases le_total x y with h | h
  · simp [h, min_eq_left h]
  · rcases eq_or_lt_of_le h with rfl | hlt
    · simp
    · simp [not_le.mpr hlt, hlt, min_eq_right h]

theorem max_partial_ord_eq (x y : ℚ) : max_partial_ord x y = max x y := by
  unfold max_partial_ord
  rcases le_total y x with h | h
  · simp [h, max_eq_left h]
  · rcases eq_or_lt_of_le h with rfl | hlt
    · simp
    · simp [not_le.mpr hlt, hlt, max_eq_right h]

/-! ### Claim theorems -/

/-- Claim C10: `Sphere::new` stores `0.0` in `theta_min`, `theta_max` and
`phi_max` for every choice of constructor arguments, discarding the
caller-supplied `phi_max` argument. -/
theorem c10_sphere_new_zeroes_clip_fields (o2w w2o : Matrix4) (rev : Bool)
    (radius z_min z_max phi_max : ℚ) :
    (Sphere.new o2w w2o rev radius z_min z_max phi_max).theta_min = 0 ∧
    (Sphere.new o2w w2o rev radius z_min z_max phi_max).theta_max = 0 ∧
    (Sphere.new o2w w2o rev radius z_min z_max phi_max).phi_max = 0 :=
  ⟨rfl, rfl, rfl⟩

/-- Claim C5 (evaluating the code at the failing input): the float min/max
helpers panic on an unorderable (NaN) pair instead of returning an error
result, and `from_corners` on a NaN coordinate therefore panics too. -/
theorem c5_min_max_panic_on_nan :
    min_partial_ord_fp FP.nan (FP.num 1)
        = PanicOr.panicked "Could not find a minimumn between the given values." ∧
    max_partial_ord_fp FP.nan (FP.num 1)
        = PanicOr.panicked "Could not find a maximum between the given values." ∧
    from_corners_fp ⟨FP.nan, FP.num 0, FP.num 0⟩ ⟨FP.num 1, FP.num 1, FP.num 1⟩
        = PanicOr.panicked "Could not find a minimumn between the given values." :=
  ⟨rfl, rfl, rfl⟩

/-- Claim C6 counterexample: for the box `(0,0,0)-(1,1,1)` and the point
`(0, 1/2, 1/2)` on the x lower face, `inside_exclusive` returns `true`
although the point is not strictly inside on the x axis, refuting the
claim that no boundary coordinate on any axis is counted as contained. -/
theorem c6_counterexample :
    (Bounds3.mk ⟨0, 0, 0⟩ ⟨1, 1, 1⟩).inside_exclusive ⟨0, 1/2, 1/2⟩ = true ∧
    ¬ ((Bounds3.mk ⟨0, 0, 0⟩ ⟨1, 1, 1⟩).min.x < (Point3.mk 0 (1/2) (1/2)).x) := by
  constructor
  · simp only [Bounds3.inside_exclusive, Bool.and_eq_true, decide_eq_true_eq]
    norm_num
  · norm_num

/-- Claim C6 as amended: `inside_exclusive` is strict on both bounds of the
y and z axes and on the upper bound of the x axis, but inclusive on the
lower bound of the x axis. -/
theorem c6_amended (b : Bounds3) (p : Point3) :
    b.inside_exclusive p = true ↔
      (b.min.x ≤ p.x ∧ p.x < b.max.x ∧ b.min.y < p.y ∧ p.y < b.max.y ∧
        b.min.z < p.z ∧ p.z < b.max.z) := by
  simp [Bounds3.inside_exclusive, ge_iff_le, and_assoc]

/-- Claim C7 counterexample: for the box `(0,0,0)-(2,2,1)` the diagonal
components on X and Y tie for the largest, yet `maximum_extend` returns
`Y`, refuting the claimed tie-break toward X. -/
theorem c7_counterexample :
    (Bounds3.mk ⟨0, 0, 0⟩ ⟨2, 2, 1⟩).diagonal.x
        = (Bounds3.mk ⟨0, 0, 0⟩ ⟨2, 2, 1⟩).diagonal.y ∧
    (Bounds3.mk ⟨0, 0, 0⟩ ⟨2, 2, 1⟩).diagonal.z
        < (Bounds3.mk ⟨0, 0, 0⟩ ⟨2, 2, 1⟩).diagonal.x ∧
    (Bounds3.mk ⟨0, 0, 0⟩ ⟨2, 2, 1⟩).maximum_extend = Axis3.Y := by
  refine ⟨by norm_num [Bounds3.diagonal], by norm_num [Bounds3.diagonal], ?_⟩
  norm_num [Bounds3.maximum_extend, Bounds3.diagonal]

/-- Claim C7 as amended: `maximum_extend` returns an axis whose diagonal
component is largest, and every axis later in the order X, Y, Z than the
returned one is strictly smaller — so ties are broken toward the later
axis (a tie between X and Y yields Y, a tie between Y and Z yields Z, a
three-way tie yields Z). -/
theorem c7_amended (b : Bounds3) :
    (∀ i : Axis3, b.diagonal.get i ≤ b.diagonal.get b.maximum_extend) ∧
    (∀ i : Axis3, Axis3.idx b.maximum_extend < Axis3.idx i →
      b.diagonal.get i < b.diagonal.get b.maximum_extend) := by
  simp only [Bounds3.maximum_extend]
  split_ifs with h1 h2
  · refine ⟨fun i => ?_, fun i hi => ?_⟩
    · cases i <;> simp [Vector3.get] <;> linarith [h1.1, h1.2]
    · cases i <;> simp [Axis3.idx, Vector3.get] at hi ⊢ <;> linarith [h1.1, h1.2]
  · have hxy : b.diagonal.x ≤ b.diagonal.y := by
      rcases le_or_lt b.diagonal.x b.diagonal.y with h | h
      · exact h
      · have := not_and.mp h1 h
        linarith [not_lt.mp this]
    refine ⟨fun i => ?_, fun i hi => ?_⟩
    · cases i <;> simp [Vector3.get] <;> linarith
    · cases i <;> simp [Axis3.idx, Vector3.get] at hi ⊢ <;> linarith
  · have hyz : b.diagonal.y ≤ b.diagonal.z := not_lt.mp h2
    have hxz : b.diagonal.x ≤ b.diagonal.z := by
      rcases le_or_lt b.diagonal.x b.diagonal.y with h | h
      · linarith
      · have := not_and.mp h1 h
        linarith [not_lt.mp this]
    refine ⟨fun i => ?_, fun i hi => ?_⟩
    · cases i <;> simp [Vector3.get] <;> linarith
    · cases i <;> simp [Axis3.idx, Vector3.get] at hi ⊢

theorem axis_overlap_iff (amin amax bmin bmax : ℚ) (ha : amin ≤ amax) (hb : bmin ≤ bmax) :
    (amin ≤ bmax ∧ bmin ≤ amax) ↔ max amin bmin ≤ min amax bmax := by
  rw [max_le_iff]
  constructor
  · rintro ⟨h1, h2⟩
    exact ⟨le_min ha h1, le_min h2 hb⟩
  · rintro ⟨h1, h2⟩
    exact ⟨(le_min_iff.mp h1).2, (le_min_iff.mp h2).1⟩

/-- Claim C4: for boxes satisfying the invariant, `overlaps` returns true
iff `intersection` returns `some`. -/
theorem c4_overlaps_iff_intersection_isSome (a b : Bounds3) (ha : a.wf) (hb : b.wf) :
    a.overlaps b = true ↔ (a.intersection b).isSome = true := by
  obtain ⟨hax, hay, haz⟩ := ha
  obtain ⟨hbx, hby, hbz⟩ := hb
  have hx := axis_overlap_iff a.min.x a.max.x b.min.x b.max.x hax hbx
  have hy := axis_overlap_iff a.min.y a.max.y b.min.y b.max.y hay hby
  have hz := axis_overlap_iff a.min.z a.max.z b.min.z b.max.z haz hbz
  simp only [Bounds3.overlaps, Bounds3.intersection, leq_3d, min_partial_ord_eq,
    max_partial_ord_eq, Bool.and_eq_true, decide_eq_true_eq, ge_iff_le]
  split_ifs with h
  · simp only [Option.isSome_some, iff_true]
    exact ⟨⟨hx.mpr h.1.1, hy.mpr h.1.2⟩, hz.mpr h.2⟩
  · simp only [Option.isSome_none, Bool.false_eq_true, iff_false]
    rintro ⟨⟨hxo, hyo⟩, hzo⟩
    exact h ⟨⟨hx.mp hxo, hy.mp hyo⟩, hz.mp hzo⟩

/-- Witness for C4 at concrete boxes. -/
theorem c4_witness :
    (Bounds3.mk ⟨0, 0, 0⟩ ⟨1, 1, 1⟩).overlaps (Bounds3.mk ⟨2, 0, 0⟩ ⟨3, 1, 1⟩) = true ↔
      ((Bounds3.mk ⟨0, 0, 0⟩ ⟨1, 1, 1⟩).intersection (Bounds3.mk ⟨2, 0, 0⟩ ⟨3, 1, 1⟩)).isSome
        = true :=
  c4_overlaps_iff_intersection_isSome _ _ (by norm_num [Bounds3.wf])
    (by norm_num [Bounds3.wf])

/-- Claim C9: every box produced by `from_point`, `from_corners`, `union`,
`union_with_point`, a `some` result of `intersection`, or `expand` applied
to boxes already satisfying the invariant, satisfies `min[i] ≤ max[i]` on
every axis. -/
theorem c9_constructors_preserve_wf (p q1 q2 : Point3) (a b : Bounds3) (delta : ℚ)
    (ha : a.wf) (hb : b.wf) :
    (Bounds3.from_point p).wf ∧ (Bounds3.from_corners q1 q2).wf ∧
    (a.union b).wf ∧ (a.union_with_point p).wf ∧
    (∀ c, a.intersection b = some c → c.wf) ∧ (a.expand delta).wf := by
  obtain ⟨hax, hay, haz⟩ := ha
  obtain ⟨hbx, hby, hbz⟩ := hb
  refine ⟨⟨le_refl _, le_refl _, le_refl _⟩, ?_, ?_, ?_, ?_, ?_⟩
  · simp only [Bounds3.from_corners, Bounds3.wf, min_partial_ord_eq, max_partial_ord_eq]
    exact ⟨min_le_max, min_le_max, min_le_max⟩
  · simp only [Bounds3.union, Bounds3.wf, min_partial_ord_eq, max_partial_ord_eq]
    exact ⟨le_trans (min_le_left _ _) (le_trans hax (le_max_left _ _)),
      le_trans (min_le_left _ _) (le_trans hay (le_max_left _ _)),
      le_trans (min_le_left _ _) (le_trans haz (le_max_left _ _))⟩
  · simp only [Bounds3.union_with_point, Bounds3.union, Bounds3.from_point, Bounds3.wf,
      min_partial_ord_eq, max_partial_ord_eq]
    exact ⟨le_trans (min_le_left _ _) (le_trans hax (le_max_left _ _)),
      le_trans (min_le_left _ _) (le_trans hay (le_max_left _ _)),
      le_trans (min_le_left _ _) (le_trans haz (le_max_left _ _))⟩
  · intro c hc
    simp only [Bounds3.intersection] at hc
    split_ifs at hc with h
    cases hc
    simp only [leq_3d, Bool.and_eq_true, decide_eq_true_eq] at h
    exact ⟨h.1.1, h.1.2, h.2⟩
  · simp only [Bounds3.expand]
    split_ifs with h
    · exact ⟨by show a.min.x - delta ≤ a.max.x + delta; linarith,
        by show a.min.y - delta ≤ a.max.y + delta; linarith,
        by show a.min.z - delta ≤ a.max.z + delta; linarith⟩
    · exact ⟨hax, hay, haz⟩

/-- Witness for C9 at concrete points and boxes. -/
theorem c9_witness :
    (Bounds3.from_point ⟨0, 0, 0⟩).wf ∧
    (Bounds3.from_corners ⟨1, 2, 3⟩ ⟨0, 5, 1⟩).wf ∧
    ((Bounds3.mk ⟨0, 0, 0⟩ ⟨1, 1, 1⟩).union (Bounds3.mk ⟨0, 0, 0⟩ ⟨2, 2, 2⟩)).wf ∧
    ((Bounds3.mk ⟨0, 0, 0⟩ ⟨1, 1, 1⟩).union_with_point ⟨0, 0, 0⟩).wf ∧
    (∀ c, (Bounds3.mk ⟨0, 0, 0⟩ ⟨1, 1, 1⟩).intersection (Bounds3.mk ⟨0, 0, 0⟩ ⟨2, 2, 2⟩)
        = some c → c.wf) ∧
    ((Bounds3.mk ⟨0, 0, 0⟩ ⟨1, 1, 1⟩).expand 1).wf :=
  c9_constructors_preserve_wf ⟨0, 0, 0⟩ ⟨1, 2, 3⟩ ⟨0, 5, 1⟩ _ _ 1
    (by norm_num [Bounds3.wf]) (by norm_num [Bounds3.wf])

theorem slab_dim_parallel_outside (bmin bmax o : ℚ) (acc : ℚ × ℚ)
    (ho : o < bmin ∨ o > bmax) :
    slab_dim bmin bmax o 0 acc = none := by
  unfold slab_dim
  rw [if_pos rfl, if_pos ho]

theorem slab_dim_inside (bmin bmax o d hi : ℚ) (h1 : bmin < o) (h2 : o < bmax)
    (hhi : 0 < hi) :
    ∃ hi2, slab_dim bmin bmax o d (0, hi) = some (0, hi2) ∧ 0 < hi2 := by
  by_cases hd : d = 0
  · refine ⟨hi, ?_, hhi⟩
    unfold slab_dim
    rw [if_pos hd, if_neg ?_]
    push_neg
    exact ⟨by linarith, by linarith⟩
  · rcases lt_or_gt_of_ne hd with hneg | hpos
    · have hrec : 1 / d < 0 := one_div_neg.mpr hneg
      have ht0 : 0 < (bmin - o) * (1 / d) := mul_pos_of_neg_of_neg (by linarith) hrec
      have ht1 : (bmax - o) * (1 / d) < 0 := mul_neg_of_pos_of_neg (by linarith) hrec
      simp only [slab_dim, if_neg hd]
      split_ifs <;> first
        | exact ⟨_, rfl, by linarith⟩
        | (exfalso; linarith)
    · have hrec : 0 < 1 / d := one_div_pos.mpr hpos
      have ht0 : (bmin - o) * (1 / d) < 0 := mul_neg_of_neg_of_pos (by linarith) hrec
      have ht1 : 0 < (bmax - o) * (1 / d) := mul_pos (by linarith) hrec
      simp only [slab_dim, if_neg hd]
      split_ifs <;> first
        | exact ⟨_, rfl, by linarith⟩
        | (exfalso; linarith)

/-- Claim C2: a ray whose origin is strictly inside the box on every axis
and whose `t_max` is positive yields `some` interval with lower bound 0. -/
theorem c2_origin_inside_lower_bound_zero (b : Bounds3) (r : Ray)
    (hin : ∀ i : Axis3, b.min.get i < r.origin.get i ∧ r.origin.get i < b.max.get i)
    (ht : 0 < r.t_max) :
    ∃ hi, b.ray_intersection r = some (0, hi) := by
  have hx := hin Axis3.X
  have hy := hin Axis3.Y
  have hz := hin Axis3.Z
  simp only [Point3.get] at hx hy hz
  obtain ⟨h1, e1, p1⟩ :=
    slab_dim_inside b.min.x b.max.x r.origin.x r.direction.x r.t_max hx.1 hx.2 ht
  obtain ⟨h2, e2, p2⟩ :=
    slab_dim_inside b.min.y b.max.y r.origin.y r.direction.y h1 hy.1 hy.2 p1
  obtain ⟨h3, e3, _⟩ :=
    slab_dim_inside b.min.z b.max.z r.origin.z r.direction.z h2 hz.1 hz.2 p2
  refine ⟨h3, ?_⟩
  unfold Bounds3.ray_intersection
  rw [e1]
  show (slab_dim b.min.y b.max.y r.origin.y r.direction.y (0, h1)).bind
      (fun acc2 => slab_dim b.min.z b.max.z r.origin.z r.direction.z acc2) = some (0, h3)
  rw [e2]
  show slab_dim b.min.z b.max.z r.origin.z r.direction.z (0, h2) = some (0, h3)
  exact e3

/-- Witness for C2: the box `(0,0,0)-(2,2,2)` and a ray from `(1,1,1)`
along `+z` with `t_max = 5`. -/
theorem c2_witness :
    ∃ hi, (Bounds3.mk ⟨0, 0, 0⟩ ⟨2, 2, 2⟩).ray_intersection
        { origin := ⟨1, 1, 1⟩, direction := ⟨0, 0, 1⟩, t_max := 5, time := 0 }
      = some (0, hi) :=
  c2_origin_inside_lower_bound_zero _ _
    (by intro i
        cases i <;>
          exact ⟨by norm_num [Point3.get], by norm_num [Point3.get]⟩)
    (by norm_num)

/-- Claim C3: a ray whose direction is zero on some axis, with origin
outside the box's slab on that axis, never intersects the box. -/
theorem c3_parallel_outside_misses (b : Bounds3) (r : Ray) (i : Axis3)
    (hd : r.direction.get i = 0)
    (ho : r.origin.get i < b.min.get i ∨ r.origin.get i > b.max.get i) :
    b.ray_intersection r = none := by
  cases i
  case X =>
    simp only [Vector3.get, Point3.get] at hd ho
    unfold Bounds3.ray_intersection
    rw [hd, slab_dim_parallel_outside _ _ _ _ ho]
    rfl
  case Y =>
    simp only [Vector3.get, Point3.get] at hd ho
    unfold Bounds3.ray_intersection
    rw [hd]
    cases hx : slab_dim b.min.x b.max.x r.origin.x r.direction.x (0, r.t_max) with
    | none => rfl
    | some acc1 =>
      show (slab_dim b.min.y b.max.y r.origin.y 0 acc1).bind
          (fun acc2 => slab_dim b.min.z b.max.z r.origin.z r.direction.z acc2) = none
      rw [slab_dim_parallel_outside _ _ _ _ ho]
      rfl
  case Z =>
    simp only [Vector3.get, Point3.get] at hd ho
    unfold Bounds3.ray_intersection
    rw [hd]
    cases hx : slab_dim b.min.x b.max.x r.origin.x r.direction.x (0, r.t_max) with
    | none => rfl
    | some acc1 =>
      show (slab_dim b.min.y b.max.y r.origin.y r.direction.y acc1).bind
          (fun acc2 => slab_dim b.min.z b.max.z r.origin.z 0 acc2) = none
      cases hy : slab_dim b.min.y b.max.y r.origin.y r.direction.y acc1 with
      | none => rfl
      | some acc2 =>
        show slab_dim b.min.z b.max.z r.origin.z 0 acc2 = none
        exact slab_dim_parallel_outside _ _ _ _ ho

/-- Witness for C3: a ray parallel to the x axis whose origin has
`x = 5`, outside the box `(0,0,0)-(1,1,1)`. -/
theorem c3_witness :
    (Bounds3.mk ⟨0, 0, 0⟩ ⟨1, 1, 1⟩).ray_intersection
        { origin := ⟨5, 1/2, 1/2⟩, direction := ⟨0, 1, 1⟩, t_max := 10, time := 0 }
      = none :=
  c3_parallel_outside_misses _ _ Axis3.X (by norm_num [Vector3.get])
    (Or.inr (by norm_num [Point3.get]))

theorem dot_smul_left (s : ℝ) (v w : Vec3) : (Vec3.smul s v).dot w = s * v.dot w := by
  simp only [Vec3.dot, Vec3.smul]
  ring

theorem face_forward_dot_nonneg (v1 v2 : Vec3) : 0 ≤ (face_forward v1 v2).dot v2 := by
  unfold face_forward
  split_ifs with h
  · rw [dot_smul_left]
    nlinarith
  · exact not_lt.mp h

/-- Claim C8: `set_shading_geometry` with `orientation_is_authoritative =
true` leaves the newly set shading normal (the normalized `dpdu x dpdv`)
unchanged and reorients only the geometric normal into its hemisphere;
with `false` it leaves the geometric normal unchanged and reorients only
the shading normal into the geometric normal's hemisphere. -/
theorem c8_set_shading_geometry_orientation (si : SurfaceInteraction)
    (dpdu dpdv dndu dndv : Vec3) :
    ((si.set_shading_geometry dpdu dpdv dndu dndv true).shading_geometry.normal
        = (dpdu.cross dpdv).normalize ∧
      (si.set_shading_geometry dpdu dpdv dndu dndv true).normal
        = face_forward si.normal ((dpdu.cross dpdv).normalize) ∧
      0 ≤ ((si.set_shading_geometry dpdu dpdv dndu dndv true).normal).dot
          ((si.set_shading_geometry dpdu dpdv dndu dndv true).shading_geometry.normal)) ∧
    ((si.set_shading_geometry dpdu dpdv dndu dndv false).normal = si.normal ∧
      (si.set_shading_geometry dpdu dpdv dndu dndv false).shading_geometry.normal
        = face_forward ((dpdu.cross dpdv).normalize) si.normal ∧
      0 ≤ ((si.set_shading_geometry dpdu dpdv dndu dndv false).shading_geometry.normal).dot
          ((si.set_shading_geometry dpdu dpdv dndu dndv false).normal)) := by
  refine ⟨⟨?_, ?_, ?_⟩, ⟨?_, ?_, ?_⟩⟩ <;>
    simp [SurfaceInteraction.set_shading_geometry, face_forward_dot_nonneg]

/-- Claim C1 (evaluating the code at the failing input): with
`reverse_orientation = false` and `transform_swaps_handedness = false`
(XOR false), `SurfaceInteraction::new` stores the normalized *negation*
of `dpdu x dpdv` — here `(0,0,-1)` — although the claim says the normal is
left at its natural direction `normalize (dpdu x dpdv) = (0,0,1)` when the
XOR is false. -/
theorem c1_constructor_flips_when_xor_false :
    (SurfaceInteraction.new ⟨0, 0, 0⟩ ⟨0, 0, 0⟩ none ⟨false, false⟩ (0, 0)
        ⟨1, 0, 0⟩ ⟨0, 1, 0⟩ ⟨0, 0, 0⟩ ⟨0, 0, 0⟩).normal = Vec3.mk 0 0 (-1) ∧
    Vec3.normalize (Vec3.cross ⟨1, 0, 0⟩ ⟨0, 1, 0⟩) = Vec3.mk 0 0 1 := by
  have hc : Vec3.cross ⟨1, 0, 0⟩ ⟨0, 1, 0⟩ = Vec3.mk 0 0 1 := by
    simp [Vec3.cross]
  have hv : (Vec3.mk (0 : ℝ) 0 1).vmap (fun f => -1 * f) = Vec3.mk 0 0 (-1) := by
    simp [Vec3.vmap]
  have hnorm1 : Vec3.normalize (Vec3.mk 0 0 1) = Vec3.mk 0 0 1 := by
    simp [Vec3.normalize, Vec3.magnitude, Vec3.dot, Vec3.smul]
  have hnormneg : Vec3.normalize (Vec3.mk 0 0 (-1)) = Vec3.mk 0 0 (-1) := by
    simp [Vec3.normalize, Vec3.magnitude, Vec3.dot, Vec3.smul]
  constructor
  · have hval : (SurfaceInteraction.new ⟨0, 0, 0⟩ ⟨0, 0, 0⟩ none ⟨false, false⟩ (0, 0)
          ⟨1, 0, 0⟩ ⟨0, 1, 0⟩ ⟨0, 0, 0⟩ ⟨0, 0, 0⟩).normal
        = ((Vec3.cross ⟨1, 0, 0⟩ ⟨0, 1, 0⟩).vmap (fun f => -1 * f)).normalize := by
      simp [SurfaceInteraction.new]
    rw [hval, hc, hv]
    exact hnormneg
  · rw [hc]
    exact hnorm1

end PBR
